import Mathlib

/-!
# Giveaway chess rules engine (`giveawayChess.js`)

A shallow embedding of the `GiveawayChess` class, which wraps a `chess.js`
instance (the position oracle).  The oracle is a third-party library: it is a
parameter of the development (`Oracle`), the class methods are translated
line by line over it, and every interaction of `move()` with the oracle is
recorded in a call log so that statements about "what is handed to the oracle"
and "how often the oracle is invoked" can be made.
-/

set_option autoImplicit false

namespace Giveaway

/-! ## Data exchanged with the oracle -/

/-- Side colour, `'w'` or `'b'`. -/
inductive Color where
  | w
  | b
  deriving DecidableEq, Repr

/-- Piece kinds, the one-letter symbols of the oracle. -/
inductive PieceSymbol where
  | p
  | n
  | b
  | r
  | q
  | k
  deriving DecidableEq, Repr

/-- One entry of the grid returned by `board()`. -/
structure Piece where
  color : Color
  type : PieceSymbol
  deriving DecidableEq, Repr

/-- The 8x8 grid returned by `board()`: row 0 is rank 8, column 0 is file a;
an empty square is `none` (JavaScript `null`). -/
abbrev Board := Fin 8 → Fin 8 → Option Piece

/-- A verbose move object as produced by the oracle (`from` is spelled
`from_` because `from` is reserved). -/
structure Move where
  color : Color
  from_ : String
  to_ : String
  piece : PieceSymbol
  captured : Option PieceSymbol
  promotion : Option PieceSymbol
  deriving DecidableEq, Repr

/-- The argument of `move()`: `{from, to, promotion?}`. -/
structure Candidate where
  from_ : String
  to_ : String
  promotion : Option PieceSymbol
  deriving DecidableEq, Repr

/-- A thrown JavaScript error: whether it is a `TypeError`, and its message. -/
structure JsError where
  isTypeError : Bool
  message : String
  deriving DecidableEq, Repr

deriving instance DecidableEq for Except

/-- What one call of the oracle's `move` does: it returns a move object or
`null`, or it throws. -/
inductive MoveOutcome where
  | returned (m : Option Move)
  | threw (e : JsError)
  deriving DecidableEq, Repr

/-- The interface of the `chess.js` instance as far as the class uses it.
`σ` is the internal state of an instance.  The Boolean argument of every
operation says whether the check-suppression overrides are installed on the
instance the operation runs on (they replace methods the library calls
internally, so any operation may depend on them). -/
structure Oracle (σ : Type) where
  /-- Constructor `new Chess(fen)`; it may throw. -/
  create : String → Except JsError σ
  fen : Bool → σ → String
  turn : Bool → σ → Color
  board : Bool → σ → Board
  /-- Method `moves({ verbose: true })`. -/
  moves : Bool → σ → List Move
  /-- Method `move(moveObj)`: the state afterwards and what happened. -/
  move : Bool → σ → Candidate → σ × MoveOutcome
  /-- Method `undo()`: the state afterwards and the undone move or `null`. -/
  undo : Bool → σ → σ × Option Move
  reset : Bool → σ → σ
  /-- Method `load(fen)`: the state afterwards, and either the truthiness of
  the returned value or the thrown error. -/
  load : Bool → σ → String → σ × Except JsError Bool
  /-- Method `history({ verbose: true })`: the moves `undo()` can take back,
  oldest first. -/
  history : Bool → σ → List Move

/-- A `chess.js` object as the class holds it: the library state and whether
the overrides of `_disableCheckValidation` are installed on this object.  The
overrides are own properties of the object; the library never removes them,
so only the class changes the flag. -/
structure ChessInstance (σ : Type) where
  st : σ
  checkDisabled : Bool

/-- An instance of the class `GiveawayChess`. -/
structure GiveawayChess (σ : Type) where
  _chess : ChessInstance σ
  _forcedCaptures : List Move

/-- The interactions of `move()` with the oracle object, in program order. -/
inductive OracleCall where
  | disableCheck
  | move (moveObj : Candidate)
  | moves
  | board
  | fen
  | construct (fen : String)
  deriving DecidableEq, Repr

/-- Result of running `move()`: the instance afterwards, the returned move or
the message of the thrown `Error`, and the log of oracle interactions. -/
structure MoveRun (σ : Type) where
  state : GiveawayChess σ
  result : Except String Move
  calls : List OracleCall

/-! ## JavaScript helpers -/

/-- Does the first list begin with the second one? -/
def beginsWith : List Char → List Char → Bool
  | _, [] => true
  | [], _ :: _ => false
  | a :: as, b :: bs => a == b && beginsWith as bs

/-- Does the second list occur as a contiguous block of the first one? -/
def includesChars : List Char → List Char → Bool
  | [], pat => pat.isEmpty
  | a :: as, pat => beginsWith (a :: as) pat || includesChars as pat

/-- JavaScript `s.includes(pat)`. -/
def includes (s pat : String) : Bool :=
  includesChars s.data pat.data

/-- JavaScript `parseInt` of a one-character string: a decimal digit or `NaN`. -/
def parseIntChar (c : Char) : Option Nat :=
  if c.isDigit then some (c.toNat - 48) else none

/-- The column index `moveObj.from.charCodeAt(0) - "a".charCodeAt(0)`, when it
addresses one of the eight columns. -/
def fromFile (from_ : String) : Option (Fin 8) :=
  match from_.data with
  | [] => none
  | c :: _ =>
    if h : 97 ≤ c.toNat ∧ c.toNat - 97 < 8 then some ⟨c.toNat - 97, h.2⟩ else none

/-- The row index `8 - parseInt(moveObj.from[1])`, when it addresses one of
the eight rows. -/
def fromRank (from_ : String) : Option (Fin 8) :=
  match from_.data with
  | _ :: c :: _ =>
    match parseIntChar c with
    | some d => if h : 1 ≤ d ∧ d ≤ 8 then some ⟨8 - d, by omega⟩ else none
    | none => none
  | _ => none

/-- The test `boardArr[fromRank] && boardArr[fromRank][fromFile]` of the
recovery path: is there a piece object at the source square? -/
def pieceAtSource (boardArr : Board) (from_ : String) : Bool :=
  match fromRank from_, fromFile from_ with
  | some r, some f => (boardArr r f).isSome
  | _, _ => false

/-- The default start position of the constructor. -/
def startFen : String := "rnbqkbnr/pppppppp/8/8/8/8/PPPPPPPP/RNBQKBNR w KQkq - 0 1"

/-- The guard of the recovery path: a `TypeError` whose message includes
"Cannot read properties of undefined". -/
def isUndefinedPieceError (e : JsError) : Bool :=
  e.isTypeError && includes e.message "Cannot read properties of undefined"

/-- Colour swap, `c === "w" ? "b" : "w"`. -/
def other : Color → Color
  | .w => .b
  | .b => .w

namespace GiveawayChess

variable {σ : Type}

/-- Method `_disableCheckValidation()`: installs the overrides on the current
oracle object. -/
def _disableCheckValidation (g : GiveawayChess σ) : GiveawayChess σ :=
  { g with _chess := { g._chess with checkDisabled := true } }

/-- Method `fen()`. -/
def fen (O : Oracle σ) (g : GiveawayChess σ) : String :=
  O.fen g._chess.checkDisabled g._chess.st

/-- Method `turn()`. -/
def turn (O : Oracle σ) (g : GiveawayChess σ) : Color :=
  O.turn g._chess.checkDisabled g._chess.st

/-- Method `board()`. -/
def board (O : Oracle σ) (g : GiveawayChess σ) : Board :=
  O.board g._chess.checkDisabled g._chess.st

/-- Method `_generateAllMoves()`. -/
def _generateAllMoves (O : Oracle σ) (g : GiveawayChess σ) : List Move :=
  O.moves g._chess.checkDisabled g._chess.st

/-- Method `_allLegalMoves()`. -/
def _allLegalMoves (O : Oracle σ) (g : GiveawayChess σ) : List Move :=
  g._generateAllMoves O

/-- Method `_updateForcedCaptures()`. -/
def _updateForcedCaptures (O : Oracle σ) (g : GiveawayChess σ) : GiveawayChess σ :=
  { g with _forcedCaptures := (g._allLegalMoves O).filter (fun move => move.captured.isSome) }

/-- Method `legalMoves()`. -/
def legalMoves (O : Oracle σ) (g : GiveawayChess σ) : List Move :=
  if g._forcedCaptures.length > 0 then g._forcedCaptures else g._allLegalMoves O

/-- Method `_noRemainingPieces(color)`: no square of the grid holds a piece of that
colour. -/
def _noRemainingPieces (O : Oracle σ) (g : GiveawayChess σ) (color : Color) : Bool :=
  (List.finRange 8).all fun row =>
    (List.finRange 8).all fun col =>
      match g.board O row col with
      | some piece => !(piece.color == color)
      | none => true

/-- Method `isGameOver()`. -/
def isGameOver (O : Oracle σ) (g : GiveawayChess σ) : Bool :=
  if g._noRemainingPieces O (g.turn O) ||
      g._noRemainingPieces O (if g.turn O = .w then .b else .w) then
    true
  else
    (g.legalMoves O).length == 0

/-- Method `getWinner()`; `none` is JavaScript `null`. -/
def getWinner (O : Oracle σ) (g : GiveawayChess σ) : Option Color :=
  if !(g.isGameOver O) then none
  else if g._noRemainingPieces O .w then some .w
  else if g._noRemainingPieces O .b then some .b
  else some (if g.turn O = .w then .b else .w)

/-- The oracle's `history()` of the current object (the class keeps no move
list of its own; `undo()` delegates to the oracle). -/
def history (O : Oracle σ) (g : GiveawayChess σ) : List Move :=
  O.history g._chess.checkDisabled g._chess.st

/-- The constructor: `new Chess(fen || start)`, the overrides, the first
computation of the forced captures.  An exception of `new Chess` propagates. -/
def new (O : Oracle σ) (fen : Option String) : Except JsError (GiveawayChess σ) :=
  let arg := match fen with
    | some f => if f = "" then startFen else f
    | none => startFen
  match O.create arg with
  | .error e => .error e
  | .ok st =>
    .ok (_updateForcedCaptures O
      (_disableCheckValidation { _chess := { st := st, checkDisabled := false }, _forcedCaptures := [] }))

/-- The tail of a successful `move()`: overrides, forced captures of the next
player, return the move. -/
def finishMove (O : Oracle σ) (g : GiveawayChess σ) (m : Move) (calls : List OracleCall) :
    MoveRun σ :=
  { state := _updateForcedCaptures O (_disableCheckValidation g)
    result := .ok m
    calls := calls ++ [.disableCheck, .moves] }

/-- The `isForced` test of `move()`. -/
def isForced (g : GiveawayChess σ) (moveObj : Candidate) : Bool :=
  g._forcedCaptures.any fun forced => forced.from_ == moveObj.from_ && forced.to_ == moveObj.to_

/-- The recovery path of `move()` (the inner `try`), entered with the oracle
in the state the failed first attempt left. -/
def retryMove (O : Oracle σ) (g : GiveawayChess σ) (moveObj : Candidate)
    (calls : List OracleCall) : MoveRun σ :=
  let corrupted := "Cannot make move: piece information is corrupted"
  let boardArr := g.board O
  if !(pieceAtSource boardArr moveObj.from_) then
    { state := g, result := .error corrupted, calls := calls ++ [.board] }
  else
    let fen := g.fen O
    match O.create fen with
    | .error _ =>
      { state := g, result := .error corrupted, calls := calls ++ [.board, .fen, .construct fen] }
    | .ok st =>
      let g1 := _disableCheckValidation { g with _chess := { st := st, checkDisabled := false } }
      let calls1 := calls ++ [.board, .fen, .construct fen, .disableCheck, .move moveObj]
      match O.move g1._chess.checkDisabled g1._chess.st moveObj with
      | (st1, .returned (some m)) =>
        finishMove O { g1 with _chess := { g1._chess with st := st1 } } m calls1
      | (st1, _) =>
        { state := { g1 with _chess := { g1._chess with st := st1 } }
          result := .error corrupted
          calls := calls1 }

/-- Method `move(moveObj)`. -/
def move (O : Oracle σ) (g : GiveawayChess σ) (moveObj : Candidate) : MoveRun σ :=
  let g0 := _disableCheckValidation g
  if g0._forcedCaptures.length > 0 && !(isForced g0 moveObj) then
    { state := g0
      result := .error "Forced capture available. Must capture a piece."
      calls := [.disableCheck] }
  else
    let calls := [OracleCall.disableCheck, .move moveObj]
    match O.move g0._chess.checkDisabled g0._chess.st moveObj with
    | (st1, .returned (some m)) =>
      finishMove O { g0 with _chess := { g0._chess with st := st1 } } m calls
    | (st1, .returned none) =>
      { state := { g0 with _chess := { g0._chess with st := st1 } }
        result := .error "Invalid move"
        calls := calls }
    | (st1, .threw e) =>
      let g1 : GiveawayChess σ := { g0 with _chess := { g0._chess with st := st1 } }
      if isUndefinedPieceError e then
        retryMove O g1 moveObj calls
      else
        { state := g1, result := .error ("Invalid move: " ++ e.message), calls := calls }

/-- Method `undo()`. -/
def undo (O : Oracle σ) (g : GiveawayChess σ) : GiveawayChess σ × Option Move :=
  match O.undo g._chess.checkDisabled g._chess.st with
  | (st1, some m) =>
    (_updateForcedCaptures O
      (_disableCheckValidation { g with _chess := { g._chess with st := st1 } }), some m)
  | (st1, none) => ({ g with _chess := { g._chess with st := st1 } }, none)

/-- Method `reset()`. -/
def reset (O : Oracle σ) (g : GiveawayChess σ) : GiveawayChess σ :=
  let st1 := O.reset g._chess.checkDisabled g._chess.st
  _updateForcedCaptures O (_disableCheckValidation { g with _chess := { g._chess with st := st1 } })

/-- Method `load(fen)`: the instance afterwards and the truthiness of the returned
value, or the error thrown by the oracle. -/
def load (O : Oracle σ) (g : GiveawayChess σ) (fen : String) :
    GiveawayChess σ × Except JsError Bool :=
  match O.load g._chess.checkDisabled g._chess.st fen with
  | (st1, .ok true) =>
    (_updateForcedCaptures O
      (_disableCheckValidation { g with _chess := { g._chess with st := st1 } }), .ok true)
  | (st1, r) => ({ g with _chess := { g._chess with st := st1 } }, r)

/-- Function `makeMove(sourceSquare, targetSquare)` of `App.jsx`, as far as it drives
the engine: the candidate it builds always carries `promotion: "q"`. -/
def makeMove (O : Oracle σ) (g : GiveawayChess σ) (sourceSquare targetSquare : String) :
    MoveRun σ :=
  move O g { from_ := sourceSquare, to_ := targetSquare, promotion := some .q }

end GiveawayChess

/-- The instance `g` with another library state in its (patched) oracle
object. -/
def withState {σ : Type} (g : GiveawayChess σ) (st : σ) : GiveawayChess σ :=
  { _chess := { st := st, checkDisabled := true }, _forcedCaptures := g._forcedCaptures }

/-- Is the log entry an invocation of the oracle's `move`? -/
def isMoveCall : OracleCall → Bool
  | .move _ => true
  | _ => false

/-- Number of times a run invoked the oracle's `move`. -/
def moveCallCount (calls : List OracleCall) : Nat :=
  (calls.filter isMoveCall).length

/-! ## States of an instance -/

/-- The states of an instance: what the constructor returns, closed under
every public method with every argument and every outcome. -/
inductive Reachable {σ : Type} (O : Oracle σ) : GiveawayChess σ → Prop where
  | new (fen : Option String) (g : GiveawayChess σ) :
      GiveawayChess.new O fen = .ok g → Reachable O g
  | move (g : GiveawayChess σ) (moveObj : Candidate) :
      Reachable O g → Reachable O (GiveawayChess.move O g moveObj).state
  | undo (g : GiveawayChess σ) : Reachable O g → Reachable O (GiveawayChess.undo O g).1
  | reset (g : GiveawayChess σ) : Reachable O g → Reachable O (GiveawayChess.reset O g)
  | load (g : GiveawayChess σ) (fen : String) :
      Reachable O g → Reachable O (GiveawayChess.load O g fen).1

/-- The states reached by construction followed by successful `move()`,
`undo()` and `reset()` calls only (a successful `undo()` is one that returns
a move). -/
inductive Reached {σ : Type} (O : Oracle σ) : GiveawayChess σ → Prop where
  | new (fen : Option String) (g : GiveawayChess σ) :
      GiveawayChess.new O fen = .ok g → Reached O g
  | move (g : GiveawayChess σ) (moveObj : Candidate) (m : Move) :
      Reached O g → (GiveawayChess.move O g moveObj).result = .ok m →
      Reached O (GiveawayChess.move O g moveObj).state
  | undo (g : GiveawayChess σ) (m : Move) :
      Reached O g → (GiveawayChess.undo O g).2 = some m →
      Reached O (GiveawayChess.undo O g).1
  | reset (g : GiveawayChess σ) : Reached O g → Reached O (GiveawayChess.reset O g)

/-- The cached forced captures agree with the current position. -/
def Consistent {σ : Type} (O : Oracle σ) (g : GiveawayChess σ) : Prop :=
  g._forcedCaptures = (g._generateAllMoves O).filter (fun move => move.captured.isSome)

namespace Mini

/-- The positions of the miniature oracle. -/
inductive Pos where
  /-- White a2 b2, Black a3, White to move: one capture, two quiet moves. -/
  | cap
  /-- After b2-b3 from `cap`: Black to move, blocked. -/
  | capB3
  /-- After b2-b4 from `cap`: Black to move, blocked. -/
  | capB4
  /-- After b2xa3 from `cap`: Black to move, no black piece left. -/
  | capTaken
  /-- White a2 c2, Black a3, White to move: two quiet moves, no capture. -/
  | quiet
  /-- After c2-c3 from `quiet`: Black to move, blocked. -/
  | quietC3
  /-- After c2-c4 from `quiet`: Black to move, blocked. -/
  | quietC4
  /-- White a7 h2, Black h3, White to move: the a-pawn promotes. -/
  | promo
  /-- After a7-a8=N from `promo`: Black to move, blocked. -/
  | promoN
  /-- After a7-a8=B from `promo`: Black to move, blocked. -/
  | promoB
  /-- After a7-a8=R from `promo`: Black to move, blocked. -/
  | promoR
  /-- After a7-a8=Q from `promo`: Black to move, blocked. -/
  | promoQ
  /-- The empty board, Black to move. -/
  | empty
  deriving DecidableEq, Repr

/-- Internal state of the miniature oracle: the position, and the stack of
moves made with the position each was made from, newest first. -/
structure State where
  pos : Pos
  hist : List (Move × Pos)

/-- Serialised position. -/
def fenOf : Pos → String
  | .cap => "8/8/8/8/8/p7/PP6/8 w - - 0 1"
  | .capB3 => "8/8/8/8/8/pP6/P7/8 b - - 0 1"
  | .capB4 => "8/8/8/8/1P6/p7/P7/8 b - - 0 1"
  | .capTaken => "8/8/8/8/8/P7/P7/8 b - - 0 1"
  | .quiet => "8/8/8/8/8/p7/P1P5/8 w - - 0 1"
  | .quietC3 => "8/8/8/8/8/p1P5/P7/8 b - - 0 1"
  | .quietC4 => "8/8/8/8/2P5/p7/P7/8 b - - 0 1"
  | .promo => "8/P7/8/8/8/7p/7P/8 w - - 0 1"
  | .promoN => "N7/8/8/8/8/7p/7P/8 b - - 0 1"
  | .promoB => "B7/8/8/8/8/7p/7P/8 b - - 0 1"
  | .promoR => "R7/8/8/8/8/7p/7P/8 b - - 0 1"
  | .promoQ => "Q7/8/8/8/8/7p/7P/8 b - - 0 1"
  | .empty => "8/8/8/8/8/8/8/8 b - - 0 1"

/-- All positions, for parsing. -/
def allPos : List Pos :=
  [.cap, .capB3, .capB4, .capTaken, .quiet, .quietC3, .quietC4, .promo,
   .promoN, .promoB, .promoR, .promoQ, .empty]

/-- Parsed position: the listed position with this serialisation. -/
def posOfFen (fen : String) : Option Pos :=
  allPos.find? fun pos => fenOf pos == fen

/-- Side to move. -/
def turnOf : Pos → Color
  | .cap | .quiet | .promo => .w
  | _ => .b

/-- Grid from a list of (row, column, piece). -/
def grid (l : List (Nat × Nat × Piece)) : Board :=
  fun row col => (l.find? fun e => e.1 == row.val && e.2.1 == col.val).map fun e => e.2.2

/-- A white pawn. -/
def wP : Piece := ⟨.w, .p⟩

/-- A black pawn. -/
def bP : Piece := ⟨.b, .p⟩

/-- Board contents (row 0 is rank 8, column 0 is file a). -/
def boardOf : Pos → Board
  | .cap => grid [(5, 0, bP), (6, 0, wP), (6, 1, wP)]
  | .capB3 => grid [(5, 0, bP), (5, 1, wP), (6, 0, wP)]
  | .capB4 => grid [(4, 1, wP), (5, 0, bP), (6, 0, wP)]
  | .capTaken => grid [(5, 0, wP), (6, 0, wP)]
  | .quiet => grid [(5, 0, bP), (6, 0, wP), (6, 2, wP)]
  | .quietC3 => grid [(5, 0, bP), (5, 2, wP), (6, 0, wP)]
  | .quietC4 => grid [(4, 2, wP), (5, 0, bP), (6, 0, wP)]
  | .promo => grid [(1, 0, wP), (5, 7, bP), (6, 7, wP)]
  | .promoN => grid [(0, 0, ⟨.w, .n⟩), (5, 7, bP), (6, 7, wP)]
  | .promoB => grid [(0, 0, ⟨.w, .b⟩), (5, 7, bP), (6, 7, wP)]
  | .promoR => grid [(0, 0, ⟨.w, .r⟩), (5, 7, bP), (6, 7, wP)]
  | .promoQ => grid [(0, 0, ⟨.w, .q⟩), (5, 7, bP), (6, 7, wP)]
  | .empty => grid []

/-- A white pawn move. -/
def pawnMove (from_ to_ : String) (captured promotion : Option PieceSymbol) : Move :=
  { color := .w, from_ := from_, to_ := to_, piece := .p, captured := captured,
    promotion := promotion }

/-- Pseudo-legal moves of a position, each with the position it leads to. -/
def gen : Pos → List (Move × Pos)
  | .cap =>
    [(pawnMove "b2" "b3" none none, .capB3),
     (pawnMove "b2" "b4" none none, .capB4),
     (pawnMove "b2" "a3" (some .p) none, .capTaken)]
  | .quiet =>
    [(pawnMove "c2" "c3" none none, .quietC3),
     (pawnMove "c2" "c4" none none, .quietC4)]
  | .promo =>
    [(pawnMove "a7" "a8" none (some .n), .promoN),
     (pawnMove "a7" "a8" none (some .b), .promoB),
     (pawnMove "a7" "a8" none (some .r), .promoR),
     (pawnMove "a7" "a8" none (some .q), .promoQ)]
  | _ => []

/-- Is the string the name of a square, a file letter a-h and a rank 1-8? -/
def isSquare (s : String) : Bool :=
  match s.data with
  | [f, r] => decide (97 ≤ f.toNat ∧ f.toNat ≤ 104 ∧ 49 ≤ r.toNat ∧ r.toNat ≤ 56)
  | _ => false

/-- Does a generated move answer the candidate?  Source and target agree,
and so does the promotion piece when the move is a promotion. -/
def answers (moveObj : Candidate) (m : Move) : Bool :=
  m.from_ == moveObj.from_ && m.to_ == moveObj.to_ &&
    (m.promotion.isNone || m.promotion == moveObj.promotion)

/-- Method `move` of the miniature oracle.  A target that is not a square
makes it fail with the internal `TypeError` the engine's recovery path is
written for; a candidate no generated move answers is rejected with an
ordinary `Error`; both leave the object as it was. -/
def moveOn (s : State) (moveObj : Candidate) : State × MoveOutcome :=
  if !(isSquare moveObj.to_) then
    (s, .threw ⟨true, "Cannot read properties of undefined (reading 'type')"⟩)
  else
    match (gen s.pos).find? fun e => answers moveObj e.1 with
    | some (m, next) => (⟨next, (m, s.pos) :: s.hist⟩, .returned (some m))
    | none => (s, .threw ⟨false, "Invalid move: " ++ moveObj.from_ ++ moveObj.to_⟩)

/-- Method `undo` of the miniature oracle. -/
def undoOn (s : State) : State × Option Move :=
  match s.hist with
  | [] => (s, none)
  | (m, before) :: rest => (⟨before, rest⟩, some m)

/-- Method `load` of the miniature oracle: a listed position is installed
with an empty history and `answer` is returned; anything else throws. -/
def loadOn (answer : Bool) (s : State) (fen : String) : State × Except JsError Bool :=
  match posOfFen fen with
  | some pos => (⟨pos, []⟩, .ok answer)
  | none => (s, .error ⟨false, "Invalid FEN"⟩)

/-- The miniature oracle.  `answer` is the truthiness of what a `load` that
installed a position returns: `true` for a library that reports success,
`false` for one whose `load` returns nothing.  Its `reset` returns to `cap`,
the first position of the family (the standard start position is outside
it).  The family has no kings, so the overrides make no difference to it. -/
def oracle (answer : Bool) : Oracle State where
  create fen :=
    match posOfFen fen with
    | some pos => .ok ⟨pos, []⟩
    | none => .error ⟨false, "Invalid FEN"⟩
  fen _ s := fenOf s.pos
  turn _ s := turnOf s.pos
  board _ s := boardOf s.pos
  moves _ s := (gen s.pos).map Prod.fst
  move _ s moveObj := moveOn s moveObj
  undo _ s := undoOn s
  reset _ _ := ⟨.cap, []⟩
  load _ s fen := loadOn answer s fen
  history _ s := (s.hist.map Prod.fst).reverse

/-- An engine instance on the miniature oracle at a given position with an
empty history, as the constructor builds it. -/
def at_ (answer : Bool) (pos : Pos) : GiveawayChess State :=
  GiveawayChess._updateForcedCaptures (oracle answer)
    { _chess := { st := ⟨pos, []⟩, checkDisabled := true }, _forcedCaptures := [] }

/-- The capture b2xa3 of the position `cap`. -/
def bxa3 : Move := pawnMove "b2" "a3" (some .p) none

end Mini

/-! # Theorems -/

open GiveawayChess

variable {σ : Type}


/-! ## Basic facts about the methods -/

theorem consistent_update (O : Oracle σ) (g : GiveawayChess σ) :
    Consistent O (_updateForcedCaptures O g) := rfl

theorem disable_eq_self (g : GiveawayChess σ) (h : g._chess.checkDisabled = true) :
    _disableCheckValidation g = g := by
  cases g with
  | mk chess forced =>
    cases chess with
    | mk st flag =>
      simp only [_disableCheckValidation]
      simp only at h
      rw [h]

/-- A run of `retryMove` that returns a move ends in `finishMove`. -/
theorem retryMove_ok (O : Oracle σ) (g : GiveawayChess σ) (c : Candidate)
    (calls : List OracleCall) (m : Move) (h : (retryMove O g c calls).result = .ok m) :
    ∃ g1, (retryMove O g c calls).state = _updateForcedCaptures O (_disableCheckValidation g1) := by
  unfold retryMove at h ⊢
  cases hp : pieceAtSource (g.board O) c.from_ with
  | false => simp [hp] at h
  | true =>
    simp only [hp, Bool.not_true, Bool.false_eq_true, if_false] at h ⊢
    cases hc : O.create (g.fen O) with
    | error e => simp [hc] at h
    | ok st =>
      simp only [hc] at h ⊢
      rcases hmv : O.move (_disableCheckValidation
          { g with _chess := { st := st, checkDisabled := false } })._chess.checkDisabled
          (_disableCheckValidation
          { g with _chess := { st := st, checkDisabled := false } })._chess.st c with ⟨st1, out⟩
      simp only [hmv] at h ⊢
      cases out with
      | threw e => simp at h
      | returned r =>
        cases r with
        | none => simp at h
        | some m1 => exact ⟨_, rfl⟩

/-- A run of `move` that returns a move ends in `finishMove`. -/
theorem move_ok_state (O : Oracle σ) (g : GiveawayChess σ) (c : Candidate) (m : Move)
    (h : (move O g c).result = .ok m) :
    ∃ g1, (move O g c).state = _updateForcedCaptures O (_disableCheckValidation g1) := by
  unfold move at h ⊢
  simp only at h ⊢
  split at h
  · simp at h
  · rename_i hforced
    rw [if_neg hforced]
    rcases hmv : O.move (_disableCheckValidation g)._chess.checkDisabled
        (_disableCheckValidation g)._chess.st c with ⟨st1, out⟩
    simp only [hmv] at h ⊢
    cases out with
    | returned r =>
      cases r with
      | none => simp at h
      | some m1 => exact ⟨_, rfl⟩
    | threw e =>
      simp only at h ⊢
      cases he : isUndefinedPieceError e with
      | false => simp [he] at h
      | true =>
        simp only [he, if_true] at h ⊢
        exact retryMove_ok O _ c _ m h

theorem undo_some_state (O : Oracle σ) (g : GiveawayChess σ) (m : Move)
    (h : (undo O g).2 = some m) :
    ∃ g1, (undo O g).1 = _updateForcedCaptures O (_disableCheckValidation g1) := by
  unfold undo at h ⊢
  split at h
  · rename_i st1 m1 hu
    simp only [hu]
    exact ⟨_, rfl⟩
  · simp at h

theorem new_ok_state (O : Oracle σ) (fen : Option String) (g : GiveawayChess σ)
    (h : GiveawayChess.new O fen = .ok g) :
    ∃ g1, g = _updateForcedCaptures O (_disableCheckValidation g1) := by
  unfold GiveawayChess.new at h
  simp only at h
  split at h
  · simp at h
  · injection h with h
    exact ⟨_, h.symm⟩

/-- Every state reached by successful calls has a fresh cache. -/
theorem reached_consistent (O : Oracle σ) (g : GiveawayChess σ) (h : Reached O g) :
    Consistent O g := by
  cases h with
  | new fen g hnew =>
    obtain ⟨g1, rfl⟩ := new_ok_state O fen g hnew
    exact consistent_update O _
  | move g0 c m _ hm =>
    obtain ⟨g1, hg1⟩ := move_ok_state O g0 c m hm
    rw [hg1]
    exact consistent_update O _
  | undo g0 m _ hu =>
    obtain ⟨g1, hg1⟩ := undo_some_state O g0 m hu
    rw [hg1]
    exact consistent_update O _
  | reset g0 _ => exact consistent_update O _

/-- With a fresh cache, `legalMoves()` is the capture filter when it is not
empty and the whole pseudo-legal list otherwise. -/
theorem legalMoves_of_consistent (O : Oracle σ) (g : GiveawayChess σ) (h : Consistent O g) :
    ((∃ m ∈ g._generateAllMoves O, m.captured.isSome = true) →
        g.legalMoves O = (g._generateAllMoves O).filter (fun move => move.captured.isSome)) ∧
    ((¬ ∃ m ∈ g._generateAllMoves O, m.captured.isSome = true) →
        g.legalMoves O = g._generateAllMoves O) := by
  unfold Consistent at h
  constructor
  · rintro ⟨m, hm, hc⟩
    have hne : (g._generateAllMoves O).filter (fun move => move.captured.isSome) ≠ [] := by
      intro hnil
      have : m ∈ (g._generateAllMoves O).filter (fun move => move.captured.isSome) :=
        List.mem_filter.mpr ⟨hm, hc⟩
      rw [hnil] at this
      exact List.not_mem_nil _ this
    unfold legalMoves
    rw [h, if_pos (List.length_pos.mpr hne)]
  · intro hno
    have hnil : (g._generateAllMoves O).filter (fun move => move.captured.isSome) = [] := by
      rw [List.filter_eq_nil_iff]
      intro m hm hc
      exact hno ⟨m, hm, hc⟩
    unfold legalMoves
    rw [h, hnil]
    rfl

/-! ## The branches of `move()` -/

/-- The four ways through the recovery path. -/
theorem retryMove_cases (O : Oracle σ) (g : GiveawayChess σ) (c : Candidate)
    (calls : List OracleCall) :
    (pieceAtSource (g.board O) c.from_ = false ∧
      retryMove O g c calls =
        ⟨g, .error "Cannot make move: piece information is corrupted", calls ++ [.board]⟩) ∨
    (pieceAtSource (g.board O) c.from_ = true ∧ ∃ e, O.create (g.fen O) = .error e ∧
      retryMove O g c calls =
        ⟨g, .error "Cannot make move: piece information is corrupted",
          calls ++ [.board, .fen, .construct (g.fen O)]⟩) ∨
    (pieceAtSource (g.board O) c.from_ = true ∧ ∃ st st1 m, O.create (g.fen O) = .ok st ∧
      O.move true st c = (st1, .returned (some m)) ∧
      retryMove O g c calls =
        finishMove O (withState g st1) m
          (calls ++ [.board, .fen, .construct (g.fen O), .disableCheck, .move c])) ∨
    (pieceAtSource (g.board O) c.from_ = true ∧ ∃ st st1 out, O.create (g.fen O) = .ok st ∧
      O.move true st c = (st1, out) ∧ (∀ m, out ≠ .returned (some m)) ∧
      retryMove O g c calls =
        ⟨withState g st1, .error "Cannot make move: piece information is corrupted",
          calls ++ [.board, .fen, .construct (g.fen O), .disableCheck, .move c]⟩) := by
  unfold retryMove
  simp only
  cases hp : pieceAtSource (g.board O) c.from_ with
  | false => left; simp
  | true =>
    right
    simp only [Bool.not_true, Bool.false_eq_true, if_false, true_and]
    cases hc : O.create (g.fen O) with
    | error e => left; exact ⟨e, rfl, rfl⟩
    | ok st =>
      right
      rcases hmv : O.move true st c with ⟨st1, out⟩
      have hmv1 : O.move (_disableCheckValidation
          { g with _chess := { st := st, checkDisabled := false } })._chess.checkDisabled
          (_disableCheckValidation
          { g with _chess := { st := st, checkDisabled := false } })._chess.st c = (st1, out) := hmv
      simp only [hmv1]
      cases out with
      | threw e =>
        right
        exact ⟨st, st1, .threw e, rfl, hmv, (by intro m hm; cases hm), rfl⟩
      | returned r =>
        cases r with
        | none =>
          right
          exact ⟨st, st1, .returned none, rfl, hmv, (by intro m hm; cases hm), rfl⟩
        | some m => left; exact ⟨st, st1, m, rfl, hmv, rfl⟩

/-- The five ways through `move()` for an instance whose oracle object is
patched; the last one continues in the recovery path. -/
theorem move_cases (O : Oracle σ) (g : GiveawayChess σ) (c : Candidate)
    (hflag : g._chess.checkDisabled = true) :
    ((g._forcedCaptures.length > 0 ∧ isForced g c = false) ∧
      move O g c =
        ⟨g, .error "Forced capture available. Must capture a piece.", [.disableCheck]⟩) ∨
    (¬ (g._forcedCaptures.length > 0 ∧ isForced g c = false) ∧ ∃ st1 m,
      O.move true g._chess.st c = (st1, .returned (some m)) ∧
      move O g c = finishMove O (withState g st1) m [.disableCheck, .move c]) ∨
    (¬ (g._forcedCaptures.length > 0 ∧ isForced g c = false) ∧ ∃ st1,
      O.move true g._chess.st c = (st1, .returned none) ∧
      move O g c = ⟨withState g st1, .error "Invalid move", [.disableCheck, .move c]⟩) ∨
    (¬ (g._forcedCaptures.length > 0 ∧ isForced g c = false) ∧ ∃ st1 e,
      O.move true g._chess.st c = (st1, .threw e) ∧ isUndefinedPieceError e = false ∧
      move O g c =
        ⟨withState g st1, .error ("Invalid move: " ++ e.message), [.disableCheck, .move c]⟩) ∨
    (¬ (g._forcedCaptures.length > 0 ∧ isForced g c = false) ∧ ∃ st1 e,
      O.move true g._chess.st c = (st1, .threw e) ∧ isUndefinedPieceError e = true ∧
      move O g c = retryMove O (withState g st1) c [.disableCheck, .move c]) := by
  have hg : _disableCheckValidation g = g := disable_eq_self g hflag
  unfold move
  simp only [hg]
  by_cases hf : g._forcedCaptures.length > 0 ∧ isForced g c = false
  · left
    refine ⟨hf, ?_⟩
    have : (decide (g._forcedCaptures.length > 0) && !(isForced g c)) = true := by
      simp [hf.1, hf.2]
    rw [if_pos this]
  · right
    have : ¬ ((decide (g._forcedCaptures.length > 0) && !(isForced g c)) = true) := by
      intro hc
      apply hf
      simp only [Bool.and_eq_true, decide_eq_true_eq, Bool.not_eq_true'] at hc
      exact hc
    rw [if_neg this]
    rw [hflag]
    rcases hmv : O.move true g._chess.st c with ⟨st1, out⟩
    cases out with
    | returned r =>
      cases r with
      | some m =>
        left
        refine ⟨hf, st1, m, rfl, ?_⟩
        simp only [withState, hflag]
      | none =>
        right; left
        refine ⟨hf, st1, rfl, ?_⟩
        simp only [withState, hflag]
    | threw e =>
      right; right
      cases he : isUndefinedPieceError e with
      | false =>
        left
        refine ⟨hf, st1, e, rfl, he, ?_⟩
        simp [withState, hflag, he]
      | true =>
        right
        refine ⟨hf, st1, e, rfl, he, ?_⟩
        simp [withState, hflag, he]

/-! ## The overrides stay installed -/

theorem retryMove_flag (O : Oracle σ) (g : GiveawayChess σ) (c : Candidate)
    (calls : List OracleCall) (hflag : g._chess.checkDisabled = true) :
    (retryMove O g c calls).state._chess.checkDisabled = true := by
  rcases retryMove_cases O g c calls with ⟨_, h⟩ | ⟨_, e, _, h⟩ | ⟨_, st, st1, m, _, _, h⟩ |
    ⟨_, st, st1, out, _, _, _, h⟩
  · rw [h]; exact hflag
  · rw [h]; exact hflag
  · rw [h]; rfl
  · rw [h]; rfl

theorem move_flag (O : Oracle σ) (g : GiveawayChess σ) (c : Candidate)
    (hflag : g._chess.checkDisabled = true) :
    (move O g c).state._chess.checkDisabled = true := by
  rcases move_cases O g c hflag with ⟨_, h⟩ | ⟨_, st1, m, _, h⟩ | ⟨_, st1, _, h⟩ |
    ⟨_, st1, e, _, _, h⟩ | ⟨_, st1, e, _, _, h⟩
  · rw [h]; exact hflag
  · rw [h]; rfl
  · rw [h]; rfl
  · rw [h]; rfl
  · rw [h]; exact retryMove_flag O _ c _ rfl

theorem undo_flag (O : Oracle σ) (g : GiveawayChess σ)
    (hflag : g._chess.checkDisabled = true) :
    (undo O g).1._chess.checkDisabled = true := by
  unfold undo
  rcases hu : O.undo g._chess.checkDisabled g._chess.st with ⟨st1, r⟩
  cases r with
  | none => exact hflag
  | some m => rfl

theorem load_flag (O : Oracle σ) (g : GiveawayChess σ) (f : String)
    (hflag : g._chess.checkDisabled = true) :
    (load O g f).1._chess.checkDisabled = true := by
  unfold load
  rcases hl : O.load g._chess.checkDisabled g._chess.st f with ⟨st1, r⟩
  cases r with
  | error e => exact hflag
  | ok b =>
    cases b with
    | true => rfl
    | false => exact hflag

/-- In every state of an instance the overrides are installed on the current
oracle object. -/
theorem reachable_flag (O : Oracle σ) (g : GiveawayChess σ) (h : Reachable O g) :
    g._chess.checkDisabled = true := by
  induction h with
  | new fen g hnew =>
    obtain ⟨g1, rfl⟩ := new_ok_state O fen g hnew
    rfl
  | move g c _ ih => exact move_flag O g c ih
  | undo g _ ih => exact undo_flag O g ih
  | reset g _ _ => rfl
  | load g f _ ih => exact load_flag O g f ih

theorem isForced_false_of_no_match (g : GiveawayChess σ) (c : Candidate)
    (h : ∀ f ∈ g._forcedCaptures, ¬ (f.from_ = c.from_ ∧ f.to_ = c.to_)) :
    isForced g c = false := by
  unfold isForced
  rw [List.any_eq_false]
  intro f hf hc
  apply h f hf
  simpa using hc

/-! ## Forced-capture rejection -/

/-- C2. In every state of an instance whose forced-capture set is not empty,
`move()` on a candidate whose (from, to) pair matches no entry of the set
throws "Forced capture available. Must capture a piece.", never calls the
oracle's `move`, and leaves the instance (in particular `fen()`) as it was. -/
theorem forced_capture_rejection (O : Oracle σ) (g : GiveawayChess σ) (c : Candidate)
    (hg : Reachable O g) (hne : g._forcedCaptures ≠ [])
    (hnc : ∀ f ∈ g._forcedCaptures, ¬ (f.from_ = c.from_ ∧ f.to_ = c.to_)) :
    (move O g c).result = .error "Forced capture available. Must capture a piece." ∧
    (∀ x, OracleCall.move x ∉ (move O g c).calls) ∧
    fen O (move O g c).state = fen O g ∧
    (move O g c).state = g := by
  have hflag := reachable_flag O g hg
  have hcond : g._forcedCaptures.length > 0 ∧ isForced g c = false :=
    ⟨List.length_pos.mpr hne, isForced_false_of_no_match g c hnc⟩
  rcases move_cases O g c hflag with ⟨_, h⟩ | ⟨hn, _⟩ | ⟨hn, _⟩ | ⟨hn, _⟩ | ⟨hn, _⟩
  · rw [h]
    refine ⟨rfl, ?_, rfl, rfl⟩
    intro x hx
    simp at hx
  · exact absurd hcond hn
  · exact absurd hcond hn
  · exact absurd hcond hn
  · exact absurd hcond hn

/-! ## Terminal positions -/

/-- C5. `getWinner()` is `null` exactly when `isGameOver()` is false, and when
`isGameOver()` is true it is one of the two colours. -/
theorem winner_iff_game_over (O : Oracle σ) (g : GiveawayChess σ) :
    (getWinner O g = none ↔ isGameOver O g = false) ∧
    (isGameOver O g = true → getWinner O g = some .w ∨ getWinner O g = some .b) := by
  unfold getWinner
  cases hover : isGameOver O g with
  | false => simp
  | true =>
    simp only [Bool.not_true, Bool.false_eq_true, if_false]
    constructor
    · constructor
      · intro h
        split_ifs at h
      · intro h
        cases h
    · intro _
      split_ifs
      · left; rfl
      · right; rfl
      · right; rfl
      · left; rfl

/-- C3, as the code has it. When both colours still have a piece and
`legalMoves()` is empty, `getWinner()` returns the opponent of the side to
move. -/
theorem no_moves_winner_is_opponent (O : Oracle σ) (g : GiveawayChess σ)
    (hw : _noRemainingPieces O g .w = false) (hb : _noRemainingPieces O g .b = false)
    (hmoves : legalMoves O g = []) :
    isGameOver O g = true ∧ getWinner O g = some (other (turn O g)) := by
  have hover : isGameOver O g = true := by
    unfold isGameOver
    split_ifs <;> simp [hmoves]
  refine ⟨hover, ?_⟩
  unfold getWinner
  simp only [hover, hw, hb, Bool.not_true, Bool.false_eq_true, if_false]
  cases turn O g <;> rfl

theorem retryMove_calls (O : Oracle σ) (g : GiveawayChess σ) (c : Candidate)
    (calls : List OracleCall) (x : Candidate)
    (hx : OracleCall.move x ∈ (retryMove O g c calls).calls) :
    OracleCall.move x ∈ calls ∨ x = c := by
  rcases retryMove_cases O g c calls with ⟨_, h⟩ | ⟨_, e, _, h⟩ | ⟨_, st, st1, m, _, _, h⟩ |
    ⟨_, st, st1, out, _, _, _, h⟩ <;>
  · rw [h] at hx
    simp [finishMove] at hx
    tauto

theorem move_calls (O : Oracle σ) (g : GiveawayChess σ) (c : Candidate) (x : Candidate)
    (hx : OracleCall.move x ∈ (move O g c).calls) : x = c := by
  unfold move at hx
  simp only at hx
  split at hx
  · simp at hx
  · split at hx
    · simp [finishMove] at hx; exact hx
    · simp at hx; exact hx
    · split at hx
      · rcases retryMove_calls O _ c _ x hx with h | h
        · simp at h; exact h
        · exact h
      · simp at hx; exact hx

/-- C9, as the code has it. `move()` hands the oracle the candidate exactly
as it received it, on the first attempt and on the retry: a missing promotion
field stays missing. The queen is supplied by the caller `makeMove` of
`App.jsx`, whose candidates always carry `promotion: "q"`. -/
theorem move_passes_candidate_unchanged (O : Oracle σ) (g : GiveawayChess σ) :
    (∀ c x, OracleCall.move x ∈ (move O g c).calls → x = c) ∧
    (∀ sourceSquare targetSquare x,
      OracleCall.move x ∈ (makeMove O g sourceSquare targetSquare).calls →
      x.promotion = some .q) := by
  constructor
  · intro c x hx
    exact move_calls O g c x hx
  · intro a b x hx
    unfold makeMove at hx
    rw [move_calls O g _ x hx]

/-! ## The bounded recovery of `move()` -/

/-- C10. For a candidate that passes the forced-capture check, `move()`
invokes the oracle's `move` at most twice. A second invocation happens only
when the first one threw a `TypeError` whose message includes "Cannot read
properties of undefined", and then the log ends with the rebuild of the oracle
from the current `fen()`, the reinstalled overrides and the same candidate.
When the retry does not return a move the call throws "Cannot make move:
piece information is corrupted" after exactly two invocations. Any other
error thrown by the first invocation gives "Invalid move: " followed by its
message after exactly one invocation (and a first invocation that returns
`null` without throwing gives "Invalid move", also after one invocation). -/
theorem move_recovery_bounded (O : Oracle σ) (g : GiveawayChess σ) (c : Candidate)
    (hg : Reachable O g)
    (hpass : ¬ (g._forcedCaptures.length > 0 ∧ isForced g c = false)) :
    moveCallCount (move O g c).calls ≤ 2 ∧
    (moveCallCount (move O g c).calls = 2 →
      ∃ e pre post, (O.move true g._chess.st c).2 = .threw e ∧ isUndefinedPieceError e = true ∧
        (move O g c).calls =
          pre ++ [.construct (O.fen true (O.move true g._chess.st c).1), .disableCheck, .move c]
            ++ post ∧
        moveCallCount pre = 1 ∧ moveCallCount post = 0) ∧
    (∀ e, (O.move true g._chess.st c).2 = .threw e → isUndefinedPieceError e = true →
      (move O g c).result = .error "Cannot make move: piece information is corrupted" ∨
      ∃ m, (move O g c).result = .ok m ∧ moveCallCount (move O g c).calls = 2) ∧
    (∀ e st, (O.move true g._chess.st c).2 = .threw e → isUndefinedPieceError e = true →
      pieceAtSource (O.board true (O.move true g._chess.st c).1) c.from_ = true →
      O.create (O.fen true (O.move true g._chess.st c).1) = .ok st →
      (∀ m, (O.move true st c).2 ≠ .returned (some m)) →
      (move O g c).result = .error "Cannot make move: piece information is corrupted" ∧
      moveCallCount (move O g c).calls = 2) ∧
    (∀ e, (O.move true g._chess.st c).2 = .threw e → isUndefinedPieceError e = false →
      (move O g c).result = .error ("Invalid move: " ++ e.message) ∧
      moveCallCount (move O g c).calls = 1) ∧
    ((O.move true g._chess.st c).2 = .returned none →
      (move O g c).result = .error "Invalid move" ∧ moveCallCount (move O g c).calls = 1) := by
  have hflag := reachable_flag O g hg
  rcases move_cases O g c hflag with ⟨hf, _⟩ | ⟨_, st1, m, hmv, h⟩ | ⟨_, st1, hmv, h⟩ |
    ⟨_, st1, e, hmv, he, h⟩ | ⟨_, st1, e, hmv, he, h⟩
  · exact absurd hf hpass
  · rw [h, hmv]
    refine ⟨by simp [finishMove, moveCallCount, isMoveCall], ?_, ?_, ?_, ?_, ?_⟩
    · intro h2; simp [finishMove, moveCallCount, isMoveCall] at h2
    · intro e h2; cases h2
    · intro e st h2; cases h2
    · intro e h2; cases h2
    · intro h2; cases h2
  · rw [h, hmv]
    refine ⟨by simp [moveCallCount, isMoveCall], ?_, ?_, ?_, ?_, ?_⟩
    · intro h2; simp [moveCallCount, isMoveCall] at h2
    · intro e h2; cases h2
    · intro e st h2; cases h2
    · intro e h2; cases h2
    · intro _; exact ⟨rfl, by simp [moveCallCount, isMoveCall]⟩
  · rw [h, hmv]
    refine ⟨by simp [moveCallCount, isMoveCall], ?_, ?_, ?_, ?_, ?_⟩
    · intro h2; simp [moveCallCount, isMoveCall] at h2
    · intro e1 h2 h3
      injection h2 with h2
      subst h2
      rw [he] at h3
      cases h3
    · intro e1 st h2 h3
      injection h2 with h2
      subst h2
      rw [he] at h3
      cases h3
    · intro e1 h2 _
      injection h2 with h2
      subst h2
      exact ⟨rfl, by simp [moveCallCount, isMoveCall]⟩
    · intro h2; cases h2
  · rw [h, hmv]
    simp only
    have hboard : board O (withState g st1) = O.board true st1 := rfl
    have hfen : fen O (withState g st1) = O.fen true st1 := rfl
    rcases retryMove_cases O (withState g st1) c [.disableCheck, .move c] with
      ⟨hp, h2⟩ | ⟨_, e2, hc, h2⟩ | ⟨_, st, st3, m, hc, hmv2, h2⟩ |
      ⟨_, st, st3, out, hc, hmv2, hout, h2⟩
    · rw [h2]
      refine ⟨by simp [moveCallCount, isMoveCall], ?_, ?_, ?_, ?_, ?_⟩
      · intro h3; simp [moveCallCount, isMoveCall] at h3
      · intro _ _ _; left; rfl
      · intro e1 st _ _ hp1
        rw [hboard] at hp
        rw [hp] at hp1
        cases hp1
      · intro e1 h3 h4
        injection h3 with h3
        subst h3
        rw [he] at h4
        cases h4
      · intro h3; cases h3
    · rw [h2]
      refine ⟨by simp [moveCallCount, isMoveCall], ?_, ?_, ?_, ?_, ?_⟩
      · intro h3; simp [moveCallCount, isMoveCall] at h3
      · intro _ _ _; left; rfl
      · intro e1 st _ _ _ hc1
        rw [hfen] at hc
        rw [hc] at hc1
        cases hc1
      · intro e1 h3 h4
        injection h3 with h3
        subst h3
        rw [he] at h4
        cases h4
      · intro h3; cases h3
    · rw [h2, hfen]
      refine ⟨by simp [finishMove, moveCallCount, isMoveCall], ?_, ?_, ?_, ?_, ?_⟩
      · intro _
        refine ⟨e, [.disableCheck, .move c, .board, .fen], [.disableCheck, .moves], rfl, he,
          ?_, ?_, ?_⟩
        · simp [finishMove]
        · simp [moveCallCount, isMoveCall]
        · simp [moveCallCount, isMoveCall]
      · intro _ _ _
        right
        exact ⟨m, rfl, by simp [finishMove, moveCallCount, isMoveCall]⟩
      · intro e1 st' _ _ _ hc1 hno
        rw [hfen] at hc
        rw [hc] at hc1
        injection hc1 with hc1
        subst hc1
        rw [hmv2] at hno
        exact absurd rfl (hno m)
      · intro e1 h3 h4
        injection h3 with h3
        subst h3
        rw [he] at h4
        cases h4
      · intro h3; cases h3
    · rw [h2, hfen]
      refine ⟨by simp [moveCallCount, isMoveCall], ?_, ?_, ?_, ?_, ?_⟩
      · intro _
        refine ⟨e, [.disableCheck, .move c, .board, .fen], [], rfl, he, ?_, ?_, ?_⟩
        · simp
        · simp [moveCallCount, isMoveCall]
        · simp [moveCallCount]
      · intro _ _ _; left; rfl
      · intro _ _ _ _ _ _ _
        exact ⟨rfl, by simp [moveCallCount, isMoveCall]⟩
      · intro e1 h3 h4
        injection h3 with h3
        subst h3
        rw [he] at h4
        cases h4
      · intro h3; cases h3

/-! ## The miniature oracle keeps the contract -/

namespace Mini

theorem fenOf_of_posOfFen (f : String) (pos : Pos) (h : posOfFen f = some pos) :
    fenOf pos = f := by
  unfold posOfFen at h
  have := List.find?_some h
  simpa using this

end Mini

/-! ## The forced-capture invariant -/

/-- C1. In every state reached by construction followed by successful
`move()`, `undo()` and `reset()` calls, the cached `_forcedCaptures` is the
capture filter of the pseudo-legal moves of the current position; so
`legalMoves()` is exactly the capturing moves when there is one, and the
whole pseudo-legal list otherwise. -/
theorem forced_capture_invariant (O : Oracle σ) (g : GiveawayChess σ) (h : Reached O g) :
    g._forcedCaptures = (g._generateAllMoves O).filter (fun move => move.captured.isSome) ∧
    ((∃ m ∈ g._generateAllMoves O, m.captured.isSome = true) →
        g.legalMoves O = (g._generateAllMoves O).filter (fun move => move.captured.isSome)) ∧
    ((¬ ∃ m ∈ g._generateAllMoves O, m.captured.isSome = true) →
        g.legalMoves O = g._generateAllMoves O) :=
  ⟨reached_consistent O g h, legalMoves_of_consistent O g (reached_consistent O g h)⟩

/-! ## Concrete runs on the miniature oracle -/

namespace Mini

theorem reachable_at (pos : Pos) : Reachable (oracle true) (at_ true pos) :=
  Reachable.new (some (fenOf pos)) _ (by cases pos <;> rfl)

end Mini

open Mini

/-- Witness for C1: the engine built at `cap`, after taking on a3 and undoing
it, offers exactly the capture b2xa3. -/
theorem forced_capture_invariant_witness :
    Reached (oracle true) (undo (oracle true) (move (oracle true) (at_ true .cap)
      ⟨"b2", "a3", none⟩).state).1 ∧
    legalMoves (oracle true) (undo (oracle true) (move (oracle true) (at_ true .cap)
      ⟨"b2", "a3", none⟩).state).1 = [bxa3] :=
  have hr : Reached (oracle true) (undo (oracle true) (move (oracle true) (at_ true .cap)
      ⟨"b2", "a3", none⟩).state).1 :=
    Reached.undo _ bxa3
      (Reached.move _ _ bxa3 (Reached.new (some (fenOf .cap)) _ rfl) rfl) rfl
  ⟨hr, ((forced_capture_invariant (oracle true) _ hr).2.1 ⟨bxa3, by decide, rfl⟩).trans
    (by decide)⟩

/-- Witness for C2: at `cap` the quiet move b2-b3 is rejected. -/
theorem forced_capture_rejection_witness :
    (at_ true .cap)._forcedCaptures = [bxa3] ∧
    (move (oracle true) (at_ true .cap) ⟨"b2", "b3", none⟩).result =
      .error "Forced capture available. Must capture a piece." ∧
    (move (oracle true) (at_ true .cap) ⟨"b2", "b3", none⟩).calls = [.disableCheck] :=
  ⟨rfl,
    (forced_capture_rejection (oracle true) (at_ true .cap) ⟨"b2", "b3", none⟩
      (reachable_at .cap) (by decide) (by decide)).1,
    rfl⟩

/-- Counterexample to C3 as stated: at `capB3` both colours have a pawn, Black
is to move and has no legal move, and `getWinner()` is White, not the stuck
side. -/
theorem stuck_side_is_not_the_winner :
    GiveawayChess.new (oracle true) (some "8/8/8/8/8/pP6/P7/8 b - - 0 1") =
      .ok (at_ true .capB3) ∧
    _noRemainingPieces (oracle true) (at_ true .capB3) .w = false ∧
    _noRemainingPieces (oracle true) (at_ true .capB3) .b = false ∧
    legalMoves (oracle true) (at_ true .capB3) = [] ∧
    turn (oracle true) (at_ true .capB3) = .b ∧
    getWinner (oracle true) (at_ true .capB3) = some .w ∧
    getWinner (oracle true) (at_ true .capB3) ≠ some (turn (oracle true) (at_ true .capB3)) :=
  ⟨rfl, by decide, by decide, by decide, by decide, by decide, by decide⟩

/-- Witness for C3 as the code has it, at `capB3`. -/
theorem no_moves_winner_is_opponent_witness :
    isGameOver (oracle true) (at_ true .capB3) = true ∧
    getWinner (oracle true) (at_ true .capB3) =
      some (other (turn (oracle true) (at_ true .capB3))) :=
  no_moves_winner_is_opponent (oracle true) (at_ true .capB3) (by decide) (by decide)
    (by decide)

/-- Counterexample to C9 as stated: at `promo` the candidate a7-a8 without a
promotion field is a promotion move of the position, and the only candidate
`move()` hands the oracle is that same candidate, without a promotion piece;
the oracle rejects it. -/
theorem promotion_is_not_defaulted :
    (∃ m ∈ _generateAllMoves (oracle true) (at_ true .promo),
      m.from_ = "a7" ∧ m.to_ = "a8" ∧ m.promotion = some .q) ∧
    (move (oracle true) (at_ true .promo) ⟨"a7", "a8", none⟩).calls =
      [.disableCheck, .move ⟨"a7", "a8", none⟩] ∧
    OracleCall.move ⟨"a7", "a8", some .q⟩ ∉
      (move (oracle true) (at_ true .promo) ⟨"a7", "a8", none⟩).calls ∧
    (move (oracle true) (at_ true .promo) ⟨"a7", "a8", none⟩).result =
      .error "Invalid move: Invalid move: a7a8" :=
  ⟨⟨pawnMove "a7" "a8" none (some .q), by decide, rfl, rfl, rfl⟩, rfl, by decide, rfl⟩

/-- Witness for C9 as the code has it: through `makeMove` the same move
reaches the oracle with the queen and is made. -/
theorem move_passes_candidate_unchanged_witness :
    OracleCall.move ⟨"a7", "a8", some .q⟩ ∈ (makeMove (oracle true) (at_ true .promo) "a7" "a8").calls ∧
    (⟨"a7", "a8", some .q⟩ : Candidate).promotion = some .q ∧
    (makeMove (oracle true) (at_ true .promo) "a7" "a8").result =
      .ok (pawnMove "a7" "a8" none (some .q)) :=
  have hin : OracleCall.move ⟨"a7", "a8", some .q⟩ ∈
      (makeMove (oracle true) (at_ true .promo) "a7" "a8").calls := by decide
  ⟨hin, (move_passes_candidate_unchanged (oracle true) (at_ true .promo)).2 "a7" "a8" _ hin, rfl⟩

/-- Witness for C10: at `quietC3` the candidate a3-z9 passes the forced-capture
check, the oracle's `move` is invoked twice and the call ends in the
corrupted-state error. -/
theorem move_recovery_bounded_witness :
    ¬ ((at_ true .quietC3)._forcedCaptures.length > 0 ∧
      isForced (at_ true .quietC3) ⟨"a3", "z9", none⟩ = false) ∧
    moveCallCount (move (oracle true) (at_ true .quietC3) ⟨"a3", "z9", none⟩).calls = 2 ∧
    (move (oracle true) (at_ true .quietC3) ⟨"a3", "z9", none⟩).result =
      .error "Cannot make move: piece information is corrupted" :=
  have hp : ¬ ((at_ true .quietC3)._forcedCaptures.length > 0 ∧
      isForced (at_ true .quietC3) ⟨"a3", "z9", none⟩ = false) := by decide
  have h := move_recovery_bounded (oracle true) (at_ true .quietC3) ⟨"a3", "z9", none⟩
    (reachable_at .quietC3) hp
  ⟨hp, (h.2.2.2.1 ⟨true, "Cannot read properties of undefined (reading 'type')"⟩
      ⟨.quietC3, []⟩ rfl rfl rfl rfl (by intro m hm; cases hm)).2,
    (h.2.2.2.1 ⟨true, "Cannot read properties of undefined (reading 'type')"⟩
      ⟨.quietC3, []⟩ rfl rfl rfl rfl (by intro m hm; cases hm)).1⟩

end Giveaway
